import Mathlib

/-!
Shallow embedding of the CityFix server (src/unnamed/part_002, first document,
and src/src/index.js) — the Express + MongoDB backend for reporting, tracking
and resolving urban issues.

The Mongo collections `users`, `issues`, `payments` are modelled as lists of
records inside a `DB` state.  Each HTTP handler becomes a pure function from
request data and the current `DB` to an HTTP status code (plus payload where
the handler returns one) and the successor `DB`.  `updateOne` on a filter that
matches at most one document is modelled by `updateFirst`, which rewrites the
first list element satisfying the predicate.  `new Date()` timestamps are
passed in as an explicit `now : Nat` argument.
-/

/-- Timeline entry as pushed by the handlers: `{status, message, by, time}`.
The source field `by` is a Lean keyword, modelled as `by_`. -/
structure TimelineEntry where
  status : String
  message : String
  by_ : String
  time : Nat
deriving Repr, DecidableEq

/-- Staff reference sent as the body of PATCH /issues/assign/:id.  The code
stores the request body verbatim; the email (the identifier) may be absent. -/
structure StaffRef where
  name : String
  email : Option String
deriving Repr, DecidableEq

/-- Issue document as built by POST /issues. -/
structure Issue where
  id : Nat
  title : String
  description : String
  reporterEmail : String
  reporterPremium : Bool
  category : String
  location : String
  image : String
  priority : String
  status : String
  assignedStaff : Option StaffRef
  upvotes : List String
  createdAt : Nat
  timeline : List TimelineEntry
deriving Repr, DecidableEq

/-- User document as built by POST /users. -/
structure User where
  email : String
  role : String
  status : String
  premium : Bool
  createdAt : Nat
deriving Repr, DecidableEq

/-- Payment record as upserted by POST /payment/success. -/
structure Payment where
  email : String
  type : String
  method : String
  session_id : String
  amount : Nat
  currency : String
  status : String
  date : Nat
  boost_issue : Option Nat
deriving Repr, DecidableEq

/-- The three Mongo collections plus a fresh-ObjectId counter. -/
structure DB where
  users : List User
  issues : List Issue
  payments : List Payment
  nextId : Nat
deriving Repr, DecidableEq

def DB.empty : DB := { users := [], issues := [], payments := [], nextId := 0 }

/-- Mongo updateOne: rewrite the first document matching the filter. -/
def updateFirst (p : α → Bool) (f : α → α) : List α → List α
  | [] => []
  | x :: xs => if p x then f x :: xs else x :: updateFirst p f xs

/-- JS falsiness of an optional string field (`!email` is true for a missing
field and for the empty string). -/
def falsy : Option String → Bool
  | none => true
  | some s => s == ""

/-- Body of POST /issues. -/
structure CreateReq where
  title : String
  description : String
  reporterEmail : String
  category : String
  location : String
  image : Option String
  priority : Option String
deriving Repr, DecidableEq

/-- Body of PUT /issues/:id. -/
structure EditReq where
  title : String
  description : String
  category : String
  location : String
  image : String
  reporterEmail : String
deriving Repr, DecidableEq

/-- Premium flag the handlers read through `user?.premium`: false when the
user document is absent. -/
def premiumOf (email : String) (db : DB) : Bool :=
  match db.users.find? (fun u => u.email == email) with
  | some u => u.premium
  | none => false

/-- Number of issue documents with the given reporterEmail
(`issuesCollection.countDocuments({ reporterEmail: email })`). -/
def countIssuesOf (email : String) (db : DB) : Nat :=
  (db.issues.filter (fun i => i.reporterEmail == email)).length

/-- checkFreeLimit (part_002 lines 308-313): premium users are never limited;
otherwise the reporter is limited once they have 3 or more issues. -/
def checkFreeLimit (email : String) (db : DB) : Bool :=
  if premiumOf email db then false
  else decide (3 ≤ countIssuesOf email db)

/-- POST /issues (part_002 lines 318-354): quota check, then insert a fresh
issue with status pending and a single seeded timeline entry.  Returns the
status code, the insertedId on success, and the new store. -/
def createIssue (d : CreateReq) (now : Nat) (db : DB) : (Nat × Option Nat) × DB :=
  if checkFreeLimit d.reporterEmail db then ((400, none), db)
  else
    let reporter := db.users.find? (fun u => u.email == d.reporterEmail)
    let issue : Issue :=
      { id := db.nextId
        title := d.title
        description := d.description
        reporterEmail := d.reporterEmail
        reporterPremium := match reporter with
          | some u => u.premium
          | none => false
        category := d.category
        location := d.location
        image := d.image.getD ""
        priority := d.priority.getD "normal"
        status := "pending"
        assignedStaff := none
        upvotes := []
        createdAt := now
        timeline := [{ status := "pending", message := "Issue created",
                       by_ := d.reporterEmail, time := now }] }
    ((200, some db.nextId),
     { db with issues := db.issues ++ [issue], nextId := db.nextId + 1 })

/-- PATCH /issues/status/:id (part_002 lines 550-571): unconditionally set the
status and push a timeline entry; no transition validation exists in the
handler, and it always answers success. -/
def changeStatus (id : Nat) (newStatus by_ : String) (now : Nat) (db : DB) : Nat × DB :=
  let entry : TimelineEntry :=
    { status := newStatus, message := "Status changed to " ++ newStatus,
      by_ := by_, time := now }
  let issues :=
    updateFirst (fun i => i.id == id)
      (fun i => { i with status := newStatus, timeline := i.timeline ++ [entry] })
      db.issues
  (200, { db with issues := issues })

/-- PATCH /issues/assign/:id (part_002 lines 513-529): unconditionally store
the request body as assignedStaff and push an assigned entry; the handler
does not validate the staff reference, does not change the status, and has no
transition check. -/
def assignStaff (id : Nat) (staff : StaffRef) (now : Nat) (db : DB) : Nat × DB :=
  let entry : TimelineEntry :=
    { status := "assigned", message := "Assigned to " ++ staff.name,
      by_ := "admin", time := now }
  let issues :=
    updateFirst (fun i => i.id == id)
      (fun i => { i with assignedStaff := some staff, timeline := i.timeline ++ [entry] })
      db.issues
  (200, { db with issues := issues })

/-- PUT /issues/:id (part_002 lines 425-459): 404 when absent, 400 when the
status is not pending, otherwise set the descriptive fields and push a
timeline entry. -/
def editIssue (id : Nat) (upd : EditReq) (now : Nat) (db : DB) : Nat × DB :=
  match db.issues.find? (fun i => i.id == id) with
  | none => (404, db)
  | some issue =>
    if issue.status != "pending" then (400, db)
    else
      let entry : TimelineEntry :=
        { status := "pending", message := "Issue updated by citizen",
          by_ := upd.reporterEmail, time := now }
      let issues :=
        updateFirst (fun i => i.id == id)
          (fun i => { i with title := upd.title, description := upd.description,
                             category := upd.category, location := upd.location,
                             image := upd.image, timeline := i.timeline ++ [entry] })
          db.issues
      (200, { db with issues := issues })

/-- DELETE /issues/:id (part_002 lines 464-477): 404 when absent, 400 when the
status is not pending.  In the remaining branch the source runs
issuesCollection.deleteOne with the filter built from new Object.params.id;
Object.params is undefined, so that expression throws a TypeError before any
document is deleted, the catch block answers 500, and the store is unchanged.
The pending branch therefore yields 500 with the same store. -/
def deleteIssue (id : Nat) (db : DB) : Nat × DB :=
  match db.issues.find? (fun i => i.id == id) with
  | none => (404, db)
  | some issue =>
    if issue.status != "pending" then (400, db)
    else (500, db)

/-- Blocked check the upvote handler performs first, through
`userDoc?.status === "blocked"`: false when the voter document is absent. -/
def voterBlocked (email : String) (db : DB) : Bool :=
  match db.users.find? (fun u => u.email == email) with
  | some u => u.status == "blocked"
  | none => false

/-- PATCH /issues/upvote/:id (part_002 lines 482-508): blocked voter 403,
absent issue 404, self vote 400, duplicate vote 400; on success push the
voter and answer with newCount computed from the document read before the
update. -/
def upvoteIssue (id : Nat) (email : String) (db : DB) : (Nat × Option Nat) × DB :=
  if voterBlocked email db then ((403, none), db)
  else
    match db.issues.find? (fun i => i.id == id) with
    | none => ((404, none), db)
    | some issue =>
      if issue.reporterEmail == email then ((400, none), db)
      else if issue.upvotes.contains email then ((400, none), db)
      else
        let issues :=
          updateFirst (fun i => i.id == id)
            (fun i => { i with upvotes := i.upvotes ++ [email] })
            db.issues
        ((200, some (issue.upvotes.length + 1)), { db with issues := issues })

/-- PATCH /issues/reject/:id (part_002 lines 576-597): updateOne whose filter
requires status pending; a non-pending or absent issue matches nothing and
the store is unchanged, while the handler always answers success. -/
def rejectIssue (id : Nat) (now : Nat) (db : DB) : Nat × DB :=
  let entry : TimelineEntry :=
    { status := "rejected", message := "Issue rejected by admin",
      by_ := "admin", time := now }
  let issues :=
    updateFirst (fun i => i.id == id && i.status == "pending")
      (fun i => { i with status := "rejected", timeline := i.timeline ++ [entry] })
      db.issues
  (200, { db with issues := issues })

/-- Payment document written by the upsert in POST /payment/success. -/
def paymentDoc (email session_id : String) (boost_issue : Option Nat) (now : Nat) : Payment :=
  { email := email
    type := if boost_issue.isSome then "boost" else "premium"
    method := "stripe"
    session_id := session_id
    amount := if boost_issue.isSome then 100 else 1000
    currency := "BDT"
    status := "paid"
    date := now
    boost_issue := boost_issue }

/-- updateOne({email}, {$set: ...}, {upsert: true}) on the payments
collection: replace the first record with that email, or insert one. -/
def upsertPaymentByEmail (email : String) (doc : Payment) (ps : List Payment) : List Payment :=
  if (ps.find? (fun p => p.email == email)).isSome
  then updateFirst (fun p => p.email == email) (fun _ => doc) ps
  else ps ++ [doc]

/-- POST /payment/success (part_002 lines 151-197): reject missing fields
with 400 before any write; otherwise apply the boost when boost_issue is
present (priority high plus a boosted timeline entry), set the user premium,
and upsert the payment record keyed by email.  No session-reference equality
check exists anywhere in the handler. -/
def paymentSuccess (email? session_id? : Option String) (boost_issue? : Option Nat)
    (now : Nat) (db : DB) : Nat × DB :=
  if falsy email? || falsy session_id? then (400, db)
  else
    let email := email?.getD ""
    let session_id := session_id?.getD ""
    let boostEntry : TimelineEntry :=
      { status := "boosted", message := "Issue boosted to HIGH priority",
        by_ := email, time := now }
    let db1 :=
      match boost_issue? with
      | some bid =>
        let issues :=
          updateFirst (fun (i : Issue) => i.id == bid)
            (fun i => { i with priority := "high", timeline := i.timeline ++ [boostEntry] })
            db.issues
        { db with issues := issues }
      | none => db
    let users :=
      updateFirst (fun (u : User) => u.email == email) (fun u => { u with premium := true }) db1.users
    let db2 := { db1 with users := users }
    let payments := upsertPaymentByEmail email (paymentDoc email session_id boost_issue? now) db2.payments
    let db3 := { db2 with payments := payments }
    (200, db3)

/-! ### Generic lemmas about updateFirst (the model of updateOne) -/

theorem updateFirst_of_find?_eq_some {α : Type} {p : α → Bool} (f : α → α) {l : List α} {a : α}
    (h : l.find? p = some a) :
    ∃ pre post, l = pre ++ a :: post ∧ updateFirst p f l = pre ++ f a :: post ∧
      ∀ x ∈ pre, p x = false := by
  induction l with
  | nil => simp at h
  | cons x xs ih =>
    by_cases hp : p x
    · rw [List.find?_cons_of_pos _ hp] at h
      obtain rfl : x = a := by simpa using h
      exact ⟨[], xs, rfl, by simp [updateFirst, hp], by simp⟩
    · rw [List.find?_cons_of_neg _ hp] at h
      obtain ⟨pre, post, h1, h2, h3⟩ := ih h
      refine ⟨x :: pre, post, by simp [h1], by simp [updateFirst, hp, h2], ?_⟩
      intro y hy
      rcases List.mem_cons.mp hy with rfl | hy
      · exact Bool.of_not_eq_true hp
      · exact h3 y hy

theorem updateFirst_of_find?_eq_none {α : Type} {p : α → Bool} (f : α → α) {l : List α}
    (h : l.find? p = none) : updateFirst p f l = l := by
  induction l with
  | nil => rfl
  | cons x xs ih =>
    rw [List.find?_eq_none] at h
    have hp : ¬ p x = true := h x (List.mem_cons_self x xs)
    have hxs : xs.find? p = none := by
      rw [List.find?_eq_none]
      intro y hy
      exact h y (List.mem_cons_of_mem x hy)
    simp [updateFirst, hp, ih hxs]

theorem mem_updateFirst {α : Type} {p : α → Bool} {f : α → α} {l : List α} {x : α}
    (hx : x ∈ updateFirst p f l) : x ∈ l ∨ ∃ a ∈ l, x = f a := by
  induction l with
  | nil => simp [updateFirst] at hx
  | cons y ys ih =>
    by_cases hp : p y
    · simp only [updateFirst, if_pos hp] at hx
      rcases List.mem_cons.mp hx with rfl | hx
      · exact Or.inr ⟨y, List.mem_cons_self y ys, rfl⟩
      · exact Or.inl (List.mem_cons_of_mem y hx)
    · simp only [updateFirst, if_neg hp] at hx
      rcases List.mem_cons.mp hx with rfl | hx
      · exact Or.inl (List.mem_cons_self x ys)
      · rcases ih hx with h | ⟨a, ha, rfl⟩
        · exact Or.inl (List.mem_cons_of_mem y h)
        · exact Or.inr ⟨a, List.mem_cons_of_mem y ha, rfl⟩

theorem updateFirst_getElem? {α : Type} (p : α → Bool) (f : α → α) (l : List α) (j : Nat) :
    (updateFirst p f l)[j]? = l[j]? ∨ (updateFirst p f l)[j]? = (l[j]?).map f := by
  induction l generalizing j with
  | nil => left; rfl
  | cons x xs ih =>
    by_cases hp : p x
    · cases j with
      | zero => right; simp [updateFirst, hp]
      | succ k => left; simp [updateFirst, hp]
    · cases j with
      | zero => left; simp [updateFirst, hp]
      | succ k =>
        rcases ih k with h | h
        · left; simpa [updateFirst, hp] using h
        · right; simpa [updateFirst, hp] using h

/-! ### Sequences of core operations (for the audit-timeline invariant) -/

/-- Core mutating operations of the issue lifecycle: create, assign,
status change, edit, reject, and the boost-carrying payment confirmation. -/
inductive Op where
  | create (d : CreateReq) (now : Nat)
  | assign (id : Nat) (staff : StaffRef) (now : Nat)
  | setStatus (id : Nat) (newStatus by_ : String) (now : Nat)
  | edit (id : Nat) (upd : EditReq) (now : Nat)
  | reject (id : Nat) (now : Nat)
  | confirmPay (email? session_id? : Option String) (boost_issue? : Option Nat) (now : Nat)
deriving Repr, DecidableEq

/-- State reached by one operation (the store component of each handler). -/
def applyOp : Op → DB → DB
  | .create d now, db => (createIssue d now db).2
  | .assign id staff now, db => (assignStaff id staff now db).2
  | .setStatus id s b now, db => (changeStatus id s b now db).2
  | .edit id upd now, db => (editIssue id upd now db).2
  | .reject id now, db => (rejectIssue id now db).2
  | .confirmPay e s b now, db => (paymentSuccess e s b now db).2

/-- State reached by a sequence of operations from the empty store. -/
def runOps (ops : List Op) : DB :=
  ops.foldl (fun db op => applyOp op db) DB.empty

/-- The timeline starts with the entry seeded at creation: it is a cons whose
head has status pending. -/
def firstPending (i : Issue) : Prop :=
  ∃ e rest, i.timeline = e :: rest ∧ e.status = "pending"

theorem firstPending_of_append {i j : Issue} {l : List TimelineEntry}
    (h : firstPending i) (hj : j.timeline = i.timeline ++ l) : firstPending j := by
  obtain ⟨e, rest, he, hs⟩ := h
  exact ⟨e, rest ++ l, by simp [hj, he], hs⟩

theorem applyOp_preserves_firstPending (op : Op) (db : DB)
    (h : ∀ i ∈ db.issues, firstPending i) :
    ∀ i ∈ (applyOp op db).issues, firstPending i := by
  cases op with
  | create d now =>
    intro i hi
    by_cases hq : checkFreeLimit d.reporterEmail db
    · simp only [applyOp, createIssue, if_pos hq] at hi
      exact h i hi
    · simp only [applyOp, createIssue, if_neg hq] at hi
      rcases List.mem_append.mp hi with hi | hi
      · exact h i hi
      · obtain rfl : i = _ := List.mem_singleton.mp hi
        exact ⟨_, [], rfl, rfl⟩
  | assign id staff now =>
    intro i hi
    simp only [applyOp, assignStaff] at hi
    rcases mem_updateFirst hi with hi | ⟨a, ha, rfl⟩
    · exact h i hi
    · exact firstPending_of_append (h a ha) rfl
  | setStatus id s b now =>
    intro i hi
    simp only [applyOp, changeStatus] at hi
    rcases mem_updateFirst hi with hi | ⟨a, ha, rfl⟩
    · exact h i hi
    · exact firstPending_of_append (h a ha) rfl
  | edit id upd now =>
    intro i hi
    simp only [applyOp, editIssue] at hi
    split at hi
    · exact h i hi
    · split at hi
      · exact h i hi
      · rcases mem_updateFirst hi with hi | ⟨a', ha', rfl⟩
        · exact h i hi
        · exact firstPending_of_append (h a' ha') rfl
  | reject id now =>
    intro i hi
    simp only [applyOp, rejectIssue] at hi
    rcases mem_updateFirst hi with hi | ⟨a, ha, rfl⟩
    · exact h i hi
    · exact firstPending_of_append (h a ha) rfl
  | confirmPay e s b now =>
    intro i hi
    by_cases hv : (falsy e || falsy s) = true
    · simp only [applyOp, paymentSuccess, if_pos hv] at hi
      exact h i hi
    · simp only [applyOp, paymentSuccess, if_neg hv] at hi
      cases b with
      | none =>
        simp only at hi
        exact h i hi
      | some bid =>
        simp only at hi
        rcases mem_updateFirst hi with hi | ⟨a, ha, rfl⟩
        · exact h i hi
        · exact firstPending_of_append (h a ha) rfl

theorem runOps_firstPending (ops : List Op) : ∀ i ∈ (runOps ops).issues, firstPending i := by
  suffices h : ∀ db, (∀ i ∈ db.issues, firstPending i) →
      ∀ i ∈ (ops.foldl (fun db op => applyOp op db) db).issues, firstPending i by
    exact h DB.empty (by intro i hi; simp [DB.empty] at hi)
  induction ops with
  | nil => intro db hdb; exact hdb
  | cons op rest ih =>
    intro db hdb
    exact ih (applyOp op db) (applyOp_preserves_firstPending op db hdb)

/-- Every operation leaves the document at each position either untouched or
with its old timeline extended at the end: no entry is edited or removed. -/
theorem applyOp_timeline_extends (op : Op) (db : DB) (j : Nat) (i : Issue)
    (hj : db.issues[j]? = some i) :
    ∃ i', (applyOp op db).issues[j]? = some i' ∧ i.timeline <+: i'.timeline := by
  have hupd : ∀ (p : Issue → Bool) (f : Issue → Issue),
      (∀ a : Issue, (f a).timeline = a.timeline ++ ((f a).timeline.drop a.timeline.length)) →
      ∃ i', (updateFirst p f db.issues)[j]? = some i' ∧ i.timeline <+: i'.timeline := by
    intro p f hf
    rcases updateFirst_getElem? p f db.issues j with hg | hg
    · exact ⟨i, by rw [hg, hj], List.prefix_rfl⟩
    · refine ⟨f i, by rw [hg, hj]; rfl, ?_⟩
      exact ⟨(f i).timeline.drop i.timeline.length, (hf i).symm⟩
  cases op with
  | create d now =>
    by_cases hq : checkFreeLimit d.reporterEmail db
    · exact ⟨i, by simp only [applyOp, createIssue, if_pos hq]; exact hj, List.prefix_rfl⟩
    · refine ⟨i, ?_, List.prefix_rfl⟩
      simp only [applyOp, createIssue, if_neg hq]
      have hlt : j < db.issues.length := (List.getElem?_eq_some_iff.mp hj).1
      rw [List.getElem?_append_left hlt]
      exact hj
  | assign id staff now =>
    simp only [applyOp, assignStaff]
    exact hupd _ _ (fun a => by simp)
  | setStatus id s b now =>
    simp only [applyOp, changeStatus]
    exact hupd _ _ (fun a => by simp)
  | edit id upd now =>
    simp only [applyOp, editIssue]
    split
    · exact ⟨i, hj, List.prefix_rfl⟩
    · split
      · exact ⟨i, hj, List.prefix_rfl⟩
      · exact hupd _ _ (fun a => by simp)
  | reject id now =>
    simp only [applyOp, rejectIssue]
    exact hupd _ _ (fun a => by simp)
  | confirmPay e s b now =>
    by_cases hv : (falsy e || falsy s) = true
    · simp only [applyOp, paymentSuccess, if_pos hv]
      exact ⟨i, hj, List.prefix_rfl⟩
    · simp only [applyOp, paymentSuccess, if_neg hv]
      cases b with
      | none => exact ⟨i, hj, List.prefix_rfl⟩
      | some bid =>
        simp only
        exact hupd _ _ (fun a => by simp)

/-! ### Concrete stores used by counterexamples and witnesses -/

def sampleEntry : TimelineEntry :=
  { status := "pending", message := "Issue created", by_ := "a@x.com", time := 0 }

def c1Issue : Issue :=
  { id := 0, title := "Pothole", description := "d", reporterEmail := "a@x.com",
    reporterPremium := false, category := "Road", location := "Main St", image := "",
    priority := "normal", status := "resolved", assignedStaff := none, upvotes := [],
    createdAt := 0,
    timeline := [sampleEntry,
      { status := "resolved", message := "Status changed to resolved", by_ := "s@x.com", time := 1 }] }

def c1DB : DB := { users := [], issues := [c1Issue], payments := [], nextId := 1 }

/-- C1: the claim states that once an issue is resolved every ChangeStatus
call fails with InvalidTransition (a 400) and leaves the status unchanged.
On the store holding one resolved issue, the handler answers 200 and the
status becomes pending: the claim is false on the code. -/
theorem c1_resolved_change_status_succeeds_cex :
    c1Issue.status = "resolved" ∧
    (changeStatus 0 "pending" "s@x.com" 2 c1DB).1 = 200 ∧
    (changeStatus 0 "pending" "s@x.com" 2 c1DB).1 ≠ 400 ∧
    ((changeStatus 0 "pending" "s@x.com" 2 c1DB).2.issues.head?).map Issue.status =
      some "pending" := by
  refine ⟨rfl, rfl, by decide, rfl⟩

/-- C1 (amended): PATCH /issues/status/:id performs no transition validation
at all.  For every existing issue — whatever its current status, terminal
ones included — ChangeStatus answers 200, overwrites the status with
newStatus, and appends exactly one timeline entry; it never fails with
InvalidTransition. -/
theorem c1_change_status_never_invalid_transition
    (db : DB) (id : Nat) (s b : String) (now : Nat) (i : Issue)
    (h : db.issues.find? (fun x => x.id == id) = some i) :
    (changeStatus id s b now db).1 = 200 ∧
    ∃ pre post, db.issues = pre ++ i :: post ∧
      (changeStatus id s b now db).2.issues =
        pre ++ { i with
          status := s
          timeline := i.timeline ++
            [{ status := s, message := "Status changed to " ++ s, by_ := b, time := now }] } :: post := by
  refine ⟨rfl, ?_⟩
  obtain ⟨pre, post, h1, h2, -⟩ := updateFirst_of_find?_eq_some
    (fun i => { i with
      status := s
      timeline := i.timeline ++
        [{ status := s, message := "Status changed to " ++ s, by_ := b, time := now }] }) h
  exact ⟨pre, post, h1, h2⟩

/-- C1 witness: the amended theorem applied to the one-resolved-issue store. -/
theorem c1_change_status_witness :
    (changeStatus 0 "pending" "s@x.com" 2 c1DB).1 = 200 ∧
    ∃ pre post, c1DB.issues = pre ++ c1Issue :: post ∧
      (changeStatus 0 "pending" "s@x.com" 2 c1DB).2.issues =
        pre ++ { c1Issue with
          status := "pending"
          timeline := c1Issue.timeline ++
            [{ status := "pending", message := "Status changed to " ++ "pending",
               by_ := "s@x.com", time := 2 }] } :: post :=
  c1_change_status_never_invalid_transition c1DB 0 "pending" "s@x.com" 2 c1Issue (by decide)

def c4Issue : Issue :=
  { id := 0, title := "Streetlight", description := "d", reporterEmail := "a@x.com",
    reporterPremium := false, category := "Light", location := "Elm St", image := "",
    priority := "normal", status := "pending", assignedStaff := none, upvotes := [],
    createdAt := 0, timeline := [sampleEntry] }

def c4DB : DB := { users := [], issues := [c4Issue], payments := [], nextId := 1 }

/-- C4: the claim states that Assign transitions the issue to in-progress and
fails with ValidationError when the staff reference lacks an identifier.  On a
pending issue, assigning a staff body with no email answers 200 and the
status stays pending: the claim is false on the code. -/
theorem c4_assign_no_validation_cex :
    (assignStaff 0 { name := "Bob", email := none } 1 c4DB).1 = 200 ∧
    ((assignStaff 0 { name := "Bob", email := none } 1 c4DB).2.issues.head?).map Issue.status =
      some "pending" ∧
    ((assignStaff 0 { name := "Bob", email := none } 1 c4DB).2.issues.head?).map Issue.assignedStaff =
      some (some { name := "Bob", email := none }) := by
  refine ⟨rfl, rfl, rfl⟩

/-- C4 (amended): PATCH /issues/assign/:id neither validates the staff
reference nor touches the status.  For every existing issue — any current
status, any staffRef, identifier present or not — Assign answers 200, stores
the request body as assignedStaff, appends exactly one timeline entry
with status assigned, message Assigned to name and actor admin, and leaves
every other field, the status included, unchanged. -/
theorem c4_assign_sets_staff_keeps_status
    (db : DB) (id : Nat) (staff : StaffRef) (now : Nat) (i : Issue)
    (h : db.issues.find? (fun x => x.id == id) = some i) :
    (assignStaff id staff now db).1 = 200 ∧
    ∃ pre post, db.issues = pre ++ i :: post ∧
      (assignStaff id staff now db).2.issues =
        pre ++ { i with
          assignedStaff := some staff
          timeline := i.timeline ++
            [{ status := "assigned", message := "Assigned to " ++ staff.name,
               by_ := "admin", time := now }] } :: post := by
  refine ⟨rfl, ?_⟩
  obtain ⟨pre, post, h1, h2, -⟩ := updateFirst_of_find?_eq_some
    (fun i => { i with
      assignedStaff := some staff
      timeline := i.timeline ++
        [{ status := "assigned", message := "Assigned to " ++ staff.name,
           by_ := "admin", time := now }] }) h
  exact ⟨pre, post, h1, h2⟩

/-- C4 witness: the amended theorem applied to the one-pending-issue store. -/
theorem c4_assign_witness :
    (assignStaff 0 { name := "Bob", email := none } 1 c4DB).1 = 200 ∧
    ∃ pre post, c4DB.issues = pre ++ c4Issue :: post ∧
      (assignStaff 0 { name := "Bob", email := none } 1 c4DB).2.issues =
        pre ++ { c4Issue with
          assignedStaff := some { name := "Bob", email := none }
          timeline := c4Issue.timeline ++
            [{ status := "assigned", message := "Assigned to " ++ "Bob",
               by_ := "admin", time := 1 }] } :: post :=
  c4_assign_sets_staff_keeps_status c4DB 0 { name := "Bob", email := none } 1 c4Issue (by decide)

/-! ### C3: free-tier quota -/

theorem countIssuesOf_create_success (d : CreateReq) (now : Nat) (db : DB)
    (hq : checkFreeLimit d.reporterEmail db = false) :
    (createIssue d now db).1.1 = 200 ∧
    countIssuesOf d.reporterEmail (createIssue d now db).2 =
      countIssuesOf d.reporterEmail db + 1 := by
  refine ⟨by simp [createIssue, hq], ?_⟩
  simp [createIssue, hq, countIssuesOf, List.filter_append]

/-- C3: Create is gated by checkFreeLimit exactly as the claim states.  A
non-premium reporter with fewer than 3 existing issues succeeds (and the
issue count for that reporter grows by one, so the 4th call meets the
3-issue bound and is rejected); with 3 or more the call answers 400 and the
store is untouched.  A reporter whose premium flag is set always succeeds. -/
theorem c3_create_quota (db : DB) (d : CreateReq) (now : Nat) :
    (premiumOf d.reporterEmail db = false →
      (countIssuesOf d.reporterEmail db < 3 →
        (createIssue d now db).1.1 = 200 ∧
        countIssuesOf d.reporterEmail (createIssue d now db).2 =
          countIssuesOf d.reporterEmail db + 1) ∧
      (3 ≤ countIssuesOf d.reporterEmail db →
        createIssue d now db = ((400, none), db)))
    ∧ (premiumOf d.reporterEmail db = true →
        (createIssue d now db).1.1 = 200 ∧
        countIssuesOf d.reporterEmail (createIssue d now db).2 =
          countIssuesOf d.reporterEmail db + 1) := by
  constructor
  · intro hp
    constructor
    · intro hlt
      exact countIssuesOf_create_success d now db
        (by simp [checkFreeLimit, hp, Nat.not_le.mpr hlt])
    · intro hge
      have hq : checkFreeLimit d.reporterEmail db = true := by
        simp [checkFreeLimit, hp, hge]
      simp [createIssue, hq]
  · intro hp
    exact countIssuesOf_create_success d now db (by simp [checkFreeLimit, hp])

def c3Req : CreateReq :=
  { title := "Pothole", description := "d", reporterEmail := "a@x.com",
    category := "Road", location := "Main St", image := none, priority := none }

def c3IssueOf : Nat → Issue := fun n =>
  { id := n, title := "t", description := "d", reporterEmail := "a@x.com",
    reporterPremium := false, category := "c", location := "l", image := "",
    priority := "normal", status := "pending", assignedStaff := none, upvotes := [],
    createdAt := 0, timeline := [sampleEntry] }

def c3UserFree : User :=
  { email := "a@x.com", role := "citizen", status := "active", premium := false, createdAt := 0 }

def c3UserPrem : User :=
  { email := "a@x.com", role := "citizen", status := "active", premium := true, createdAt := 0 }

def c3DBFree : DB :=
  { users := [c3UserFree], issues := [c3IssueOf 0, c3IssueOf 1], payments := [], nextId := 2 }

def c3DBFull : DB :=
  { users := [c3UserFree], issues := [c3IssueOf 0, c3IssueOf 1, c3IssueOf 2],
    payments := [], nextId := 3 }

def c3DBPrem : DB :=
  { users := [c3UserPrem], issues := [c3IssueOf 0, c3IssueOf 1, c3IssueOf 2, c3IssueOf 3],
    payments := [], nextId := 4 }

/-- C3 witness: the quota theorem applied to a non-premium reporter with 2
then with 3 issues, and to a premium reporter with 4 issues. -/
theorem c3_create_quota_witness :
    ((createIssue c3Req 9 c3DBFree).1.1 = 200 ∧
      countIssuesOf "a@x.com" (createIssue c3Req 9 c3DBFree).2 =
        countIssuesOf "a@x.com" c3DBFree + 1) ∧
    createIssue c3Req 9 c3DBFull = ((400, none), c3DBFull) ∧
    (createIssue c3Req 9 c3DBPrem).1.1 = 200 := by
  refine ⟨?_, ?_, ?_⟩
  · exact ((c3_create_quota c3DBFree c3Req 9).1 (by decide)).1 (by decide)
  · exact ((c3_create_quota c3DBFull c3Req 9).1 (by decide)).2 (by decide)
  · exact ((c3_create_quota c3DBPrem c3Req 9).2 (by decide)).1

/-! ### C5: edit and delete are pending-only, and delete is broken -/

def c5Pending : Issue :=
  { id := 0, title := "Pothole", description := "d", reporterEmail := "a@x.com",
    reporterPremium := false, category := "Road", location := "Main St", image := "",
    priority := "normal", status := "pending", assignedStaff := none, upvotes := [],
    createdAt := 0, timeline := [sampleEntry] }

def c5InProgress : Issue :=
  { id := 1, title := "Wire", description := "d", reporterEmail := "a@x.com",
    reporterPremium := false, category := "Power", location := "Oak St", image := "",
    priority := "normal", status := "in-progress", assignedStaff := none, upvotes := [],
    createdAt := 0, timeline := [sampleEntry] }

def c5DB : DB :=
  { users := [], issues := [c5Pending, c5InProgress], payments := [], nextId := 2 }

def c5Edit : EditReq :=
  { title := "t2", description := "d2", category := "c2", location := "l2",
    image := "img2", reporterEmail := "a@x.com" }

/-- C5: Edit behaves as the claim states (200 on the pending issue, 400 with
an unchanged store on the in-progress one, as for Delete), but Delete of a
pending issue never removes it: the handler builds the delete filter from
new Object.params.id, which throws before deleteOne runs, so the request
answers 500 and the issue is still in the store. -/
theorem c5_delete_pending_returns_500 :
    c5Pending.status = "pending" ∧
    deleteIssue 0 c5DB = (500, c5DB) ∧
    deleteIssue 1 c5DB = (400, c5DB) ∧
    (editIssue 0 c5Edit 3 c5DB).1 = 200 ∧
    editIssue 1 c5Edit 3 c5DB = (400, c5DB) := by
  refine ⟨rfl, by decide, by decide, rfl, by decide⟩

/-! ### C2: ConfirmPayment replay -/

def c2User : User :=
  { email := "a@x.com", role := "citizen", status := "active", premium := false, createdAt := 0 }

def c2Issue : Issue :=
  { id := 0, title := "Pothole", description := "d", reporterEmail := "r@x.com",
    reporterPremium := false, category := "Road", location := "Main St", image := "",
    priority := "normal", status := "pending", assignedStaff := none, upvotes := [],
    createdAt := 0, timeline := [sampleEntry] }

def c2DB : DB := { users := [c2User], issues := [c2Issue], payments := [], nextId := 1 }

def c2Once : DB := (paymentSuccess (some "a@x.com") (some "sess_1") (some 0) 1 c2DB).2

def c2Twice : DB := (paymentSuccess (some "a@x.com") (some "sess_1") (some 0) 2 c2Once).2

/-- C2: replaying ConfirmPayment with the same session reference and the same
boosted issue keeps a single Payment Record (the upsert is keyed by the user
email) but appends a second boosted timeline entry, because the handler has
no session-reference equality check: the boost is double-applied, against
the idempotency requirement. -/
theorem c2_confirm_payment_replay_double_boost :
    c2Twice.payments.length = 1 ∧
    ((c2Once.issues.head?).map
      (fun i => (i.timeline.filter (fun e => e.status == "boosted")).length)) = some 1 ∧
    ((c2Twice.issues.head?).map
      (fun i => (i.timeline.filter (fun e => e.status == "boosted")).length)) = some 2 ∧
    ((c2Twice.issues.head?).map Issue.priority) = some "high" := by
  refine ⟨rfl, rfl, rfl, rfl⟩

/-! ### C8: ConfirmPayment always sets the premium flag -/

/-- C8: when both fields are present (non-falsy) and a user document with
that email exists, ConfirmPayment answers 200 and rewrites that user with
premium set to true — whether or not a boosted issue id was carried; when
either field is missing it answers 400 and returns the store unchanged. -/
theorem c8_confirm_payment_sets_premium (e? s? : Option String) (b? : Option Nat)
    (now : Nat) (db : DB) :
    ((falsy e? || falsy s?) = true → paymentSuccess e? s? b? now db = (400, db))
    ∧ (∀ e s u, e? = some e → s? = some s → e ≠ "" → s ≠ "" →
        db.users.find? (fun x => x.email == e) = some u →
        (paymentSuccess e? s? b? now db).1 = 200 ∧
        ∃ pre post, db.users = pre ++ u :: post ∧
          (paymentSuccess e? s? b? now db).2.users =
            pre ++ { u with premium := true } :: post) := by
  constructor
  · intro hv
    simp [paymentSuccess, hv]
  · intro e s u he hs hne hns hu
    subst he; subst hs
    have hv : (falsy (some e) || falsy (some s)) = false := by
      simp [falsy, hne, hns]
    obtain ⟨pre, post, h1, h2, -⟩ :=
      updateFirst_of_find?_eq_some (fun u => { u with premium := true }) hu
    refine ⟨by simp [paymentSuccess, hv], pre, post, h1, ?_⟩
    cases b? with
    | none => simpa [paymentSuccess, hv] using h2
    | some bid => simpa [paymentSuccess, hv] using h2

def c8Issue : Issue :=
  { id := 0, title := "Pothole", description := "d", reporterEmail := "r@x.com",
    reporterPremium := false, category := "Road", location := "Main St", image := "",
    priority := "normal", status := "pending", assignedStaff := none, upvotes := [],
    createdAt := 0, timeline := [sampleEntry] }

def c8User : User :=
  { email := "u@x.com", role := "citizen", status := "active", premium := false, createdAt := 0 }

def c8DB : DB := { users := [c8User], issues := [c8Issue], payments := [], nextId := 1 }

/-- C8 witness: the theorem applied to a concrete store, in the boost-only
configuration and in the missing-field configuration. -/
theorem c8_confirm_payment_witness :
    paymentSuccess none (some "sess_9") (some 0) 7 c8DB = (400, c8DB) ∧
    ((paymentSuccess (some "u@x.com") (some "sess_9") (some 0) 7 c8DB).1 = 200 ∧
      ∃ pre post, c8DB.users = pre ++ c8User :: post ∧
        (paymentSuccess (some "u@x.com") (some "sess_9") (some 0) 7 c8DB).2.users =
          pre ++ { c8User with premium := true } :: post) := by
  constructor
  · exact (c8_confirm_payment_sets_premium none (some "sess_9") (some 0) 7 c8DB).1 (by decide)
  · exact (c8_confirm_payment_sets_premium (some "u@x.com") (some "sess_9") (some 0) 7 c8DB).2
      "u@x.com" "sess_9" c8User rfl rfl (by decide) (by decide) (by decide)

/-! ### C9: reject is guarded by a pending-only filter -/

/-- C9: the reject update carries the filter {_id, status: pending}: a
pending issue with the given id is rewritten to rejected with one rejected
timeline entry appended, while a store holding no pending issue with that id
— wrong status or absent id — is returned unchanged. -/
theorem c9_reject_pending_only (db : DB) (id : Nat) (now : Nat) :
    (∀ i, db.issues.find? (fun x => x.id == id && x.status == "pending") = some i →
      ∃ pre post, db.issues = pre ++ i :: post ∧
        (rejectIssue id now db).2.issues =
          pre ++ { i with
            status := "rejected"
            timeline := i.timeline ++
              [{ status := "rejected", message := "Issue rejected by admin",
                 by_ := "admin", time := now }] } :: post)
    ∧ ((∀ i ∈ db.issues, ¬(i.id = id ∧ i.status = "pending")) →
        (rejectIssue id now db).2 = db) := by
  constructor
  · intro i hf
    obtain ⟨pre, post, h1, h2, -⟩ := updateFirst_of_find?_eq_some
      (fun i => { i with
        status := "rejected"
        timeline := i.timeline ++
          [{ status := "rejected", message := "Issue rejected by admin",
             by_ := "admin", time := now }] }) hf
    exact ⟨pre, post, h1, h2⟩
  · intro h
    have hf : db.issues.find? (fun x => x.id == id && x.status == "pending") = none := by
      rw [List.find?_eq_none]
      intro x hx
      simp only [Bool.and_eq_true, beq_iff_eq]
      intro hc
      exact h x hx hc
    have hu := updateFirst_of_find?_eq_none
      (fun i => { i with
        status := "rejected"
        timeline := i.timeline ++
          [{ status := "rejected", message := "Issue rejected by admin",
             by_ := "admin", time := now }] }) hf
    simp [rejectIssue, hu]

def c9Pending : Issue :=
  { id := 0, title := "Pothole", description := "d", reporterEmail := "a@x.com",
    reporterPremium := false, category := "Road", location := "Main St", image := "",
    priority := "normal", status := "pending", assignedStaff := none, upvotes := [],
    createdAt := 0, timeline := [sampleEntry] }

def c9Resolved : Issue :=
  { id := 1, title := "Wire", description := "d", reporterEmail := "a@x.com",
    reporterPremium := false, category := "Power", location := "Oak St", image := "",
    priority := "normal", status := "resolved", assignedStaff := none, upvotes := [],
    createdAt := 0, timeline := [sampleEntry] }

def c9DB : DB := { users := [], issues := [c9Pending, c9Resolved], payments := [], nextId := 2 }

/-- C9 witness: the reject theorem applied to a pending issue and to a store
whose only issue with the requested id is resolved. -/
theorem c9_reject_witness :
    (∃ pre post, c9DB.issues = pre ++ c9Pending :: post ∧
      (rejectIssue 0 5 c9DB).2.issues =
        pre ++ { c9Pending with
          status := "rejected"
          timeline := c9Pending.timeline ++
            [{ status := "rejected", message := "Issue rejected by admin",
               by_ := "admin", time := 5 }] } :: post) ∧
    (rejectIssue 1 5 c9DB).2 = c9DB := by
  constructor
  · exact (c9_reject_pending_only c9DB 0 5).1 c9Pending (by decide)
  · exact (c9_reject_pending_only c9DB 1 5).2 (by decide)

/-! ### C10: upvote failures leave the store untouched -/

/-- C10: every failing upvote call — blocked voter, absent issue, self vote
or duplicate vote — returns exactly the store it was given: the upvote set,
the timeline and every other field of every issue are unchanged. -/
theorem c10_upvote_failure_atomic (db : DB) (id : Nat) (email : String)
    (h : (upvoteIssue id email db).1.1 ≠ 200) :
    (upvoteIssue id email db).2 = db := by
  by_cases hb : voterBlocked email db = true
  · simp [upvoteIssue, hb]
  · rcases hf : db.issues.find? (fun i => i.id == id) with _ | i
    · simp [upvoteIssue, hb, hf]
    · by_cases hself : (i.reporterEmail == email) = true
      · simp [upvoteIssue, hb, hf, hself]
      · by_cases hdup : (i.upvotes.contains email) = true
        · have hmem : email ∈ i.upvotes := by simpa using hdup
          simp [upvoteIssue, hb, hf, hself, hmem]
        · have hmem : email ∉ i.upvotes := by simpa using hdup
          exfalso
          apply h
          simp [upvoteIssue, hb, hf, hself, hmem]

def c10Issue : Issue :=
  { id := 0, title := "Pothole", description := "d", reporterEmail := "a@x.com",
    reporterPremium := false, category := "Road", location := "Main St", image := "",
    priority := "normal", status := "pending", assignedStaff := none,
    upvotes := ["c@x.com"], createdAt := 0, timeline := [sampleEntry] }

def c10DB : DB := { users := [], issues := [c10Issue], payments := [], nextId := 1 }

/-- C10 witness: a self-vote by the reporter fails and the store is exactly
the one given. -/
theorem c10_upvote_failure_witness :
    (upvoteIssue 0 "a@x.com" c10DB).1.1 ≠ 200 ∧ (upvoteIssue 0 "a@x.com" c10DB).2 = c10DB :=
  ⟨by decide, c10_upvote_failure_atomic c10DB 0 "a@x.com" (by decide)⟩

/-! ### C6: upvote checks and error codes -/

def c6UA : User :=
  { email := "a@x.com", role := "citizen", status := "active", premium := false, createdAt := 0 }

def c6UC : User :=
  { email := "c@x.com", role := "citizen", status := "active", premium := false, createdAt := 0 }

def c6UB : User :=
  { email := "b@x.com", role := "citizen", status := "blocked", premium := false, createdAt := 0 }

def c6Issue : Issue :=
  { id := 0, title := "Pothole", description := "d", reporterEmail := "a@x.com",
    reporterPremium := false, category := "Road", location := "Main St", image := "",
    priority := "normal", status := "pending", assignedStaff := none,
    upvotes := ["c@x.com"], createdAt := 0, timeline := [sampleEntry] }

def c6DB : DB := { users := [c6UA, c6UC, c6UB], issues := [c6Issue], payments := [], nextId := 1 }

/-- C6: the claim states a self vote fails with Forbidden (403) and a
duplicate vote with Conflict (409).  The handler answers 400 for both: on a
store where a@x.com reports issue 0 and c@x.com has already voted, the self
vote and the repeat vote both return status 400. -/
theorem c6_upvote_error_codes_cex :
    (upvoteIssue 0 "a@x.com" c6DB).1.1 = 400 ∧ (upvoteIssue 0 "a@x.com" c6DB).1.1 ≠ 403 ∧
    (upvoteIssue 0 "c@x.com" c6DB).1.1 = 400 ∧ (upvoteIssue 0 "c@x.com" c6DB).1.1 ≠ 409 := by
  refine ⟨rfl, by decide, rfl, by decide⟩

/-- C6 (amended): Upvote checks in order — blocked voter 403, absent issue
404, self vote 400, duplicate vote 400 (self vote and duplicate vote surface
as 400, not as 403/409) — each failure returning the store unchanged; on
success it appends the voter to the first matching issue's upvotes and
returns the new cardinality; and it preserves, for every stored issue, that
upvotes has no duplicates and never holds the reporter's own identifier. -/
theorem c6_upvote_spec (db : DB) (id : Nat) (email : String) :
    (voterBlocked email db = true → upvoteIssue id email db = ((403, none), db))
    ∧ (voterBlocked email db = false →
        db.issues.find? (fun i => i.id == id) = none →
        upvoteIssue id email db = ((404, none), db))
    ∧ (∀ i, voterBlocked email db = false →
        db.issues.find? (fun x => x.id == id) = some i →
        i.reporterEmail = email →
        upvoteIssue id email db = ((400, none), db))
    ∧ (∀ i, voterBlocked email db = false →
        db.issues.find? (fun x => x.id == id) = some i →
        i.reporterEmail ≠ email → email ∈ i.upvotes →
        upvoteIssue id email db = ((400, none), db))
    ∧ (∀ i, voterBlocked email db = false →
        db.issues.find? (fun x => x.id == id) = some i →
        i.reporterEmail ≠ email → email ∉ i.upvotes →
        (upvoteIssue id email db).1 = (200, some (i.upvotes.length + 1)) ∧
        ∃ pre post, db.issues = pre ++ i :: post ∧
          (upvoteIssue id email db).2.issues =
            pre ++ { i with upvotes := i.upvotes ++ [email] } :: post)
    ∧ ((∀ x ∈ db.issues, x.upvotes.Nodup ∧ x.reporterEmail ∉ x.upvotes) →
        ∀ x ∈ (upvoteIssue id email db).2.issues,
          x.upvotes.Nodup ∧ x.reporterEmail ∉ x.upvotes) := by
  refine ⟨?_, ?_, ?_, ?_, ?_, ?_⟩
  · intro hb
    simp [upvoteIssue, hb]
  · intro hb hf
    simp [upvoteIssue, hb, hf]
  · intro i hb hf hself
    simp [upvoteIssue, hb, hf, hself]
  · intro i hb hf hself hmem
    simp [upvoteIssue, hb, hf, hself, hmem]
  · intro i hb hf hself hmem
    obtain ⟨pre, post, h1, h2, -⟩ := updateFirst_of_find?_eq_some
      (fun x => { x with upvotes := x.upvotes ++ [email] }) hf
    have hrun : upvoteIssue id email db =
        ((200, some (i.upvotes.length + 1)),
         { db with issues := (updateFirst (fun x => x.id == id)
             (fun x => { x with upvotes := x.upvotes ++ [email] }) db.issues) }) := by
      simp [upvoteIssue, hb, hf, hself, hmem]
    rw [hrun]
    exact ⟨rfl, pre, post, h1, h2⟩
  · intro hinv x hx
    by_cases hb : voterBlocked email db = true
    · rw [show (upvoteIssue id email db) = ((403, none), db) by simp [upvoteIssue, hb]] at hx
      exact hinv x hx
    · rcases hf : db.issues.find? (fun i => i.id == id) with _ | i
      · rw [show (upvoteIssue id email db) = ((404, none), db) by simp [upvoteIssue, hb, hf]] at hx
        exact hinv x hx
      · by_cases hself : (i.reporterEmail == email) = true
        · rw [show (upvoteIssue id email db) = ((400, none), db) by
            simp [upvoteIssue, hb, hf, beq_iff_eq.mp hself]] at hx
          exact hinv x hx
        · have hself' : i.reporterEmail ≠ email := by simpa using hself
          by_cases hdup : (i.upvotes.contains email) = true
          · have hmem : email ∈ i.upvotes := by simpa using hdup
            rw [show (upvoteIssue id email db) = ((400, none), db) by
              simp [upvoteIssue, hb, hf, hself', hmem]] at hx
            exact hinv x hx
          · have hmem : email ∉ i.upvotes := by simpa using hdup
            obtain ⟨pre, post, h1, h2, -⟩ := updateFirst_of_find?_eq_some
              (fun x => { x with upvotes := x.upvotes ++ [email] }) hf
            have hrun : (upvoteIssue id email db).2.issues =
                pre ++ { i with upvotes := i.upvotes ++ [email] } :: post := by
              rw [show (upvoteIssue id email db) =
                ((200, some (i.upvotes.length + 1)),
                 { db with issues := (updateFirst (fun x => x.id == id)
                     (fun x => { x with upvotes := x.upvotes ++ [email] }) db.issues) }) by
                simp [upvoteIssue, hb, hf, hself', hmem]]
              exact h2
            rw [hrun] at hx
            have hi : i ∈ db.issues := by rw [h1]; exact List.mem_append_right pre (List.mem_cons_self i post)
            rcases List.mem_append.mp hx with hx | hx
            · exact hinv x (by rw [h1]; exact List.mem_append_left _ hx)
            · rcases List.mem_cons.mp hx with rfl | hx
              · obtain ⟨hnd, hrep⟩ := hinv i hi
                constructor
                · rw [List.nodup_append_comm]
                  simpa [List.nodup_cons] using ⟨hmem, hnd⟩
                · simp only [List.mem_append, List.mem_singleton]
                  rintro (hr | hr)
                  · exact hrep hr
                  · exact hself' hr
              · refine hinv x ?_
                rw [h1]
                exact List.mem_append_right _ (List.mem_cons_of_mem i hx)

def c6SuccessDB : DB := { users := [c6UA, c6UC], issues := [c6Issue], payments := [], nextId := 1 }

/-- C6 witness: the amended theorem applied concretely — a blocked voter is
refused with 403, a fresh voter succeeds with the new cardinality, and the
no-duplicates / no-self-vote invariant carries over the successful call. -/
theorem c6_upvote_spec_witness :
    upvoteIssue 0 "b@x.com" c6DB = ((403, none), c6DB) ∧
    (upvoteIssue 0 "d@x.com" c6SuccessDB).1 = (200, some 2) ∧
    (∀ x ∈ (upvoteIssue 0 "d@x.com" c6SuccessDB).2.issues,
      x.upvotes.Nodup ∧ x.reporterEmail ∉ x.upvotes) := by
  refine ⟨?_, ?_, ?_⟩
  · exact (c6_upvote_spec c6DB 0 "b@x.com").1 (by decide)
  · exact (((c6_upvote_spec c6SuccessDB 0 "d@x.com").2.2.2.2.1) c6Issue (by decide) (by decide)
      (by decide) (by decide)).1
  · exact (c6_upvote_spec c6SuccessDB 0 "d@x.com").2.2.2.2.2 (by decide)

/-! ### C7: the audit timeline is seeded pending and append-only -/

/-- C7: in every store reachable from the empty store by the core operations
(create, assign, status change, edit, reject, boost-carrying payment
confirmation) each issue's timeline is non-empty with a pending first entry,
and every single operation maps the issue at each position to one whose
timeline has the old timeline as a prefix — entries are only appended, never
edited or removed. -/
theorem c7_timeline_audit (ops : List Op) (op : Op) (db : DB) (j : Nat) (i : Issue) :
    (∀ x ∈ (runOps ops).issues,
      x.timeline ≠ [] ∧ (x.timeline.head?).map TimelineEntry.status = some "pending")
    ∧ (db.issues[j]? = some i →
        ∃ i', (applyOp op db).issues[j]? = some i' ∧ i.timeline <+: i'.timeline) := by
  constructor
  · intro x hx
    obtain ⟨e, rest, he, hs⟩ := runOps_firstPending ops x hx
    exact ⟨by simp [he], by simp [he, hs]⟩
  · intro hj
    exact applyOp_timeline_extends op db j i hj

def c7Req : CreateReq :=
  { title := "Pothole", description := "d", reporterEmail := "a@x.com",
    category := "Road", location := "Main St", image := none, priority := none }

def c7DB : DB := runOps [Op.create c7Req 0]

def c7NewIssue : Issue :=
  { id := 0, title := "Pothole", description := "d", reporterEmail := "a@x.com",
    reporterPremium := false, category := "Road", location := "Main St", image := "",
    priority := "normal", status := "pending", assignedStaff := none, upvotes := [],
    createdAt := 0,
    timeline := [{ status := "pending", message := "Issue created", by_ := "a@x.com", time := 0 }] }

/-- C7 witness: the theorem applied to the store reached by one create, and
to a subsequent status change on it. -/
theorem c7_timeline_audit_witness :
    (c7NewIssue.timeline ≠ [] ∧
      (c7NewIssue.timeline.head?).map TimelineEntry.status = some "pending")
    ∧ (∃ i', (applyOp (Op.setStatus 0 "resolved" "s@x.com" 1) c7DB).issues[0]? = some i' ∧
        c7NewIssue.timeline <+: i'.timeline) := by
  constructor
  · exact (c7_timeline_audit [Op.create c7Req 0] (Op.setStatus 0 "resolved" "s@x.com" 1)
      c7DB 0 c7NewIssue).1 c7NewIssue (by decide)
  · exact (c7_timeline_audit [Op.create c7Req 0] (Op.setStatus 0 "resolved" "s@x.com" 1)
      c7DB 0 c7NewIssue).2 (by decide)
